import Mathlib

/-!
TMP37 analog temperature sensor driver: EMA and scalar Kalman filters.

Shallow embedding of `Drivers/Custom/tmp37.c`.

Modelling conventions.

* The read functions are embedded twice.  `TMP37_ReadFiltered` and
  `TMP37_ReadFilteredKalman` take C `float` values as exact rationals (`ℚ`): what is proved
  of them is proved in exact arithmetic, and limits are taken in `ℝ` after casting.
  `TMP37_ReadFiltered_f32` and `TMP37_ReadFilteredKalman_f32` follow the same lines in
  IEEE 754 binary32, with rounding, overflow and NaN; they show where the program departs
  from exact arithmetic.
* The function-local `static` variables of each read function are the fields of an
  explicit state record which the function receives and returns.
* The ADC (`HAL_ADC_Start`, `HAL_ADC_PollForConversion`, `HAL_ADC_GetValue`) is not part
  of the driver: the value `raw` obtained from `HAL_ADC_GetValue` is an argument.
  It is a `uint32_t` in the source and a `Nat` here; nothing below needs a bound on it.
* `uint8_t initialized` is a `Nat`; `!initialized` is the test `initialized = 0`.
-/

namespace TMP37

/-! ## Data model -/

/-- The handle `TMP37_Handle`: the ADC reference voltage.  (The ADC pointer `hadc` only
serves to obtain the raw sample, which is passed separately.) -/
structure TMP37_Handle where
  vref : ℚ
  deriving DecidableEq

/-- The statics of `TMP37_ReadFiltered`. -/
structure EMAState where
  filteredTemp : ℚ
  initialized : Nat
  deriving DecidableEq

/-- The statics of `TMP37_ReadFilteredKalman`. -/
structure KalmanState where
  initialized : Nat
  x : ℚ
  P : ℚ
  deriving DecidableEq

/-- Initial values of the statics of `TMP37_ReadFiltered`. -/
def emaInit : EMAState := { filteredTemp := 0.0, initialized := 0 }

/-- Initial values of the statics of `TMP37_ReadFilteredKalman`. -/
def kalmanInit : KalmanState := { initialized := 0, x := 0.0, P := 1.0 }

/-! ## Constants of the function bodies -/

/-- EMA smoothing factor `alpha = 0.01f`. -/
def alpha : ℚ := 0.01

/-- Process noise `Q = 0.001f`. -/
def Q : ℚ := 0.001

/-- Measurement noise `R = 5.0f`. -/
def R : ℚ := 5.0

/-! ## The read functions -/

/-- `TMP37_ReadFiltered` in exact arithmetic: returns the filtered temperature and the new
statics. -/
def TMP37_ReadFiltered (htmp : TMP37_Handle) (raw : Nat) (s : EMAState) : ℚ × EMAState :=
  let vout : ℚ := ((raw : ℚ) / 4095.0) * htmp.vref
  let tempC : ℚ := vout / 0.02
  let s1 : EMAState :=
    if s.initialized = 0 then { filteredTemp := tempC, initialized := 1 } else s
  let filteredTemp : ℚ := s1.filteredTemp + alpha * (tempC - s1.filteredTemp)
  (filteredTemp, { filteredTemp := filteredTemp, initialized := s1.initialized })

/-- `TMP37_ReadFilteredKalman` in exact arithmetic: returns the estimate and the new
statics. -/
def TMP37_ReadFilteredKalman (htmp : TMP37_Handle) (raw : Nat) (s : KalmanState) :
    ℚ × KalmanState :=
  let vout : ℚ := ((raw : ℚ) / 4095.0) * htmp.vref
  let z : ℚ := vout / 0.02
  if s.initialized = 0 then
    (z, { initialized := 1, x := z, P := 1.0 })
  else
    let x0 : ℚ := s.x
    let P0 : ℚ := s.P + Q
    let K : ℚ := P0 / (P0 + R)
    let x1 : ℚ := x0 + K * (z - x0)
    let P1 : ℚ := (1.0 - K) * P0
    (x1, { initialized := s.initialized, x := x1, P := P1 })

/-- The value of the local `K` (the Kalman gain) that a tracking call of
`TMP37_ReadFilteredKalman` computes when entered with statics `s`:
`P = P + Q; K = P / (P + R)`. -/
def kalmanGain (s : KalmanState) : ℚ :=
  let P0 : ℚ := s.P + Q
  P0 / (P0 + R)

/-! ## Definitions following the specification's wording -/

/-- Transfer function of the specification: `voltage = (raw / maxCode) * vref`,
`temperature = voltage / sensorSlope`, with `maxCode = 4095` and `sensorSlope = 0.02`. -/
def specTemperature (vref : ℚ) (raw : Nat) : ℚ :=
  ((raw : ℚ) / 4095) * vref / 0.02

/-! ## Runs -/

/-- Statics of the EMA filter after `n` calls that all see the same handle and sample. -/
def emaAfter (htmp : TMP37_Handle) (raw : Nat) (s : EMAState) : Nat → EMAState
  | 0 => s
  | n + 1 => (TMP37_ReadFiltered htmp raw (emaAfter htmp raw s n)).2

/-- Value returned by call number `n + 1` of `TMP37_ReadFiltered` in a run where every
call sees the same handle and sample (`n = 0` is the first call). -/
def emaReturned (htmp : TMP37_Handle) (raw : Nat) (s : EMAState) (n : Nat) : ℚ :=
  (TMP37_ReadFiltered htmp raw (emaAfter htmp raw s n)).1

/-- Statics of the Kalman filter after a sequence of calls, each with its own handle
and raw sample. -/
def kalmanRun (s : KalmanState) : List (TMP37_Handle × Nat) → KalmanState
  | [] => s
  | c :: cs => kalmanRun (TMP37_ReadFilteredKalman c.1 c.2 s).2 cs

/-- Covariance `P` stored after `n` calls of `TMP37_ReadFilteredKalman` from the initial
statics, every call seeing the same handle and sample. -/
def kalmanCov (htmp : TMP37_Handle) (raw : Nat) (n : Nat) : ℚ :=
  (kalmanRun kalmanInit (List.replicate n (htmp, raw))).P

/-- Gain computed by call number `n + 1` of `TMP37_ReadFilteredKalman` from the initial
statics under a constant stream; calls `2, 3, ...` (`n ≥ 1`) are the tracking calls. -/
def kalmanGainAt (htmp : TMP37_Handle) (raw : Nat) (n : Nat) : ℚ :=
  kalmanGain (kalmanRun kalmanInit (List.replicate n (htmp, raw)))

/-- Values returned by a sequence of calls of `TMP37_ReadFiltered` with one handle. -/
def emaOutputs (htmp : TMP37_Handle) (s : EMAState) : List Nat → List ℚ
  | [] => []
  | raw :: raws =>
    (TMP37_ReadFiltered htmp raw s).1 :: emaOutputs htmp (TMP37_ReadFiltered htmp raw s).2 raws

/-- Values returned by a sequence of calls of `TMP37_ReadFilteredKalman` with one handle. -/
def kalmanOutputs (htmp : TMP37_Handle) (s : KalmanState) : List Nat → List ℚ
  | [] => []
  | raw :: raws =>
    (TMP37_ReadFilteredKalman htmp raw s).1
      :: kalmanOutputs htmp (TMP37_ReadFilteredKalman htmp raw s).2 raws

/-! ## The driver as a whole -/

/-- `TMP37_Init`: the body is `(void)htmp;`, so the handle object is left as it is. -/
def TMP37_Init (htmp : TMP37_Handle) : TMP37_Handle := htmp

/-- Memory of the driver: the handle object and the statics of the two read functions. -/
structure Driver where
  htmp : TMP37_Handle
  ema : EMAState
  kalman : KalmanState
  deriving DecidableEq

/-- Memory at program start, for a handle set up by the caller. -/
def driverInit (htmp : TMP37_Handle) : Driver :=
  { htmp := htmp, ema := emaInit, kalman := kalmanInit }

/-- A call of one of the three API functions; a read carries the raw sample the ADC
delivers during it. -/
inductive Call where
  | Init : Call
  | ReadFiltered (raw : Nat) : Call
  | ReadFilteredKalman (raw : Nat) : Call
  deriving DecidableEq

/-- One API call on the driver memory: the returned value (none for `TMP37_Init`) and the
memory afterwards.  Each read function sees the handle and its own statics only. -/
def callDriver (c : Call) (d : Driver) : Option ℚ × Driver :=
  match c with
  | Call.Init => (none, { d with htmp := TMP37_Init d.htmp })
  | Call.ReadFiltered raw =>
    (some (TMP37_ReadFiltered d.htmp raw d.ema).1,
     { d with ema := (TMP37_ReadFiltered d.htmp raw d.ema).2 })
  | Call.ReadFilteredKalman raw =>
    (some (TMP37_ReadFilteredKalman d.htmp raw d.kalman).1,
     { d with kalman := (TMP37_ReadFilteredKalman d.htmp raw d.kalman).2 })

/-- Driver memory after a sequence of API calls. -/
def runDriver (d : Driver) : List Call → Driver
  | [] => d
  | c :: cs => runDriver (callDriver c d).2 cs

/-- Values returned by the `TMP37_ReadFiltered` calls of a sequence of API calls. -/
def emaReturns (d : Driver) : List Call → List ℚ
  | [] => []
  | Call.ReadFiltered raw :: cs =>
    (TMP37_ReadFiltered d.htmp raw d.ema).1
      :: emaReturns (callDriver (Call.ReadFiltered raw) d).2 cs
  | c :: cs => emaReturns (callDriver c d).2 cs

/-- Values returned by the `TMP37_ReadFilteredKalman` calls of a sequence of API calls. -/
def kalmanReturns (d : Driver) : List Call → List ℚ
  | [] => []
  | Call.ReadFilteredKalman raw :: cs =>
    (TMP37_ReadFilteredKalman d.htmp raw d.kalman).1
      :: kalmanReturns (callDriver (Call.ReadFilteredKalman raw) d).2 cs
  | c :: cs => kalmanReturns (callDriver c d).2 cs

/-- Raw samples of the `TMP37_ReadFiltered` calls of a sequence of API calls. -/
def emaRaws : List Call → List Nat
  | [] => []
  | Call.ReadFiltered raw :: cs => raw :: emaRaws cs
  | _ :: cs => emaRaws cs

/-- Raw samples of the `TMP37_ReadFilteredKalman` calls of a sequence of API calls. -/
def kalmanRaws : List Call → List Nat
  | [] => []
  | Call.ReadFilteredKalman raw :: cs => raw :: kalmanRaws cs
  | _ :: cs => kalmanRaws cs

/-! ## The Kalman filter with its tuning constants as parameters -/

/-- Body of `TMP37_ReadFilteredKalman` with the locals `Q` and `R` taken as parameters
`q` and `r`. -/
def readFilteredKalmanWith (q r : ℚ) (htmp : TMP37_Handle) (raw : Nat) (s : KalmanState) :
    ℚ × KalmanState :=
  let vout : ℚ := ((raw : ℚ) / 4095.0) * htmp.vref
  let z : ℚ := vout / 0.02
  if s.initialized = 0 then
    (z, { initialized := 1, x := z, P := 1.0 })
  else
    let x0 : ℚ := s.x
    let P0 : ℚ := s.P + q
    let K : ℚ := P0 / (P0 + r)
    let x1 : ℚ := x0 + K * (z - x0)
    let P1 : ℚ := (1.0 - K) * P0
    (x1, { initialized := s.initialized, x := x1, P := P1 })

/-- Statics after a sequence of calls of `readFilteredKalmanWith`. -/
def kalmanRunWith (q r : ℚ) (s : KalmanState) : List (TMP37_Handle × Nat) → KalmanState
  | [] => s
  | c :: cs => kalmanRunWith q r (readFilteredKalmanWith q r c.1 c.2 s).2 cs

/-- The divisor `P + R` of the gain that a tracking call entered with statics `s`
evaluates after its predict step `P = P + Q`, for tuning constants `q` and `r`. -/
def kalmanDenomWith (q r : ℚ) (s : KalmanState) : ℚ :=
  let P0 : ℚ := s.P + q
  P0 + r

/-- The divisor `P + R` of the gain with the constants of the source. -/
def kalmanDenom (s : KalmanState) : ℚ :=
  let P0 : ℚ := s.P + Q
  P0 + R

/-! ## Divisions made explicit -/

/-- A division that fails on a zero divisor. -/
def checkedDiv (a b : ℚ) : Option ℚ :=
  if b = 0 then none else some (a / b)

/-- `TMP37_ReadFiltered` with each division of the body (`raw / 4095.0f`, `vout / 0.02f`)
performed by `checkedDiv`: the result is `none` as soon as one divisor is zero. -/
def TMP37_ReadFiltered_checked (htmp : TMP37_Handle) (raw : Nat) (s : EMAState) :
    Option (ℚ × EMAState) :=
  (checkedDiv (raw : ℚ) 4095.0).bind fun q =>
  let vout : ℚ := q * htmp.vref
  (checkedDiv vout 0.02).bind fun tempC =>
  let s1 : EMAState :=
    if s.initialized = 0 then { filteredTemp := tempC, initialized := 1 } else s
  let filteredTemp : ℚ := s1.filteredTemp + alpha * (tempC - s1.filteredTemp)
  some (filteredTemp, { filteredTemp := filteredTemp, initialized := s1.initialized })

/-- `TMP37_ReadFilteredKalman` with each division of the body (`raw / 4095.0f`,
`vout / 0.02f`, `P / (P + R)`) performed by `checkedDiv`. -/
def TMP37_ReadFilteredKalman_checked (htmp : TMP37_Handle) (raw : Nat) (s : KalmanState) :
    Option (ℚ × KalmanState) :=
  (checkedDiv (raw : ℚ) 4095.0).bind fun q =>
  let vout : ℚ := q * htmp.vref
  (checkedDiv vout 0.02).bind fun z =>
  if s.initialized = 0 then
    some (z, { initialized := 1, x := z, P := 1.0 })
  else
    let x0 : ℚ := s.x
    let P0 : ℚ := s.P + Q
    (checkedDiv P0 (P0 + R)).bind fun K =>
    let x1 : ℚ := x0 + K * (z - x0)
    let P1 : ℚ := (1.0 - K) * P0
    some (x1, { initialized := s.initialized, x := x1, P := P1 })

/-! ## Binary32 arithmetic

The definitions above take every `float` operation without rounding.  The definitions of
this section follow the same source lines with IEEE 754 binary32 arithmetic: each
operation is rounded to nearest, ties to even, overflow gives an infinity, and invalid
operations give NaN.  The sign of zero is not represented (`-0` and `+0` are one value).
-/

/-- A binary32 value.  Every finite binary32 number is an integer multiple of `2 ^ (-149)`
(the least subnormal); `fin k` is the number `k * 2 ^ (-149)`. -/
inductive F32 where
  | fin (k : Int) : F32
  | inf (neg : Bool) : F32
  | nan : F32
  deriving DecidableEq

/-- The integer `k` with `k * 2 ^ (-149) = m * 2 ^ e`, for `e ≥ -149`. -/
def units (m : Int) (e : Int) : Int := m * ((2 ^ (e + 149).toNat : Nat) : Int)

/-- Binary search, over the bits `2 ^ (i - 1), ..., 2, 1`, for the largest `t` (from `acc`
on) with `q * 2 ^ t ≤ a`. -/
def ratioLog2 (a q : Nat) : Nat → Nat → Nat
  | 0, acc => acc
  | i + 1, acc => ratioLog2 a q i (if q * 2 ^ (acc + 2 ^ i) ≤ a then acc + 2 ^ i else acc)

/-- Rounding to binary32 of the rational `(p / q) * 2 ^ (-149)`, `q > 0`: with `t` the
binary exponent of `|p| / q` the spacing of the binary32 numbers around it is
`2 ^ (t - 23)` units (one unit below `2 ^ 24` units, which covers the subnormals); the
quotient by the spacing is rounded to the nearest integer, ties to even; a result of
`2 ^ 128` or more is an infinity. -/
def roundUnits (p : Int) (q : Nat) : F32 :=
  let a : Nat := p.natAbs
  let t : Nat := ratioLog2 a q 10 0
  let g : Nat := t - 23
  let d : Nat := q * 2 ^ g
  let fl : Nat := a / d
  let rem : Nat := a % d
  let m : Nat :=
    if 2 * rem < d then fl
    else if d < 2 * rem then fl + 1
    else if fl % 2 = 0 then fl else fl + 1
  let k : Nat := m * 2 ^ g
  if 2 ^ 277 ≤ k then F32.inf (decide (p < 0))
  else F32.fin (if p < 0 then -(k : Int) else (k : Int))

/-- The binary32 value of the decimal constant, or converted integer, `n / d`. -/
def f32 (n : Int) (d : Nat) : F32 := roundUnits (n * ((2 ^ 149 : Nat) : Int)) d

/-- Negation. -/
def F32.neg : F32 → F32
  | F32.fin k => F32.fin (-k)
  | F32.inf b => F32.inf (!b)
  | F32.nan => F32.nan

/-- Addition. -/
def F32.add : F32 → F32 → F32
  | F32.fin x, F32.fin y => roundUnits (x + y) 1
  | F32.fin _, F32.inf b => F32.inf b
  | F32.inf a, F32.fin _ => F32.inf a
  | F32.inf a, F32.inf b => if a = b then F32.inf a else F32.nan
  | _, _ => F32.nan

/-- Subtraction. -/
def F32.sub (x y : F32) : F32 := F32.add x (F32.neg y)

/-- Multiplication. -/
def F32.mul : F32 → F32 → F32
  | F32.fin x, F32.fin y => roundUnits (x * y) (2 ^ 149)
  | F32.fin x, F32.inf b => if x = 0 then F32.nan else F32.inf (xor (decide (x < 0)) b)
  | F32.inf a, F32.fin y => if y = 0 then F32.nan else F32.inf (xor a (decide (y < 0)))
  | F32.inf a, F32.inf b => F32.inf (xor a b)
  | _, _ => F32.nan

/-- Division. -/
def F32.div : F32 → F32 → F32
  | F32.fin x, F32.fin y =>
    if y = 0 then (if x = 0 then F32.nan else F32.inf (decide (x < 0)))
    else roundUnits
      (if y < 0 then -(x * ((2 ^ 149 : Nat) : Int)) else x * ((2 ^ 149 : Nat) : Int))
      y.natAbs
  | F32.fin _, F32.inf _ => F32.fin 0
  | F32.inf a, F32.fin y => F32.inf (xor a (decide (y < 0)))
  | _, _ => F32.nan

/-- The statics of `TMP37_ReadFiltered`, in binary32. -/
structure EMAStateF32 where
  filteredTemp : F32
  initialized : Nat
  deriving DecidableEq

/-- The statics of `TMP37_ReadFilteredKalman`, in binary32. -/
structure KalmanStateF32 where
  initialized : Nat
  x : F32
  P : F32
  deriving DecidableEq

/-- Initial values of the statics of `TMP37_ReadFiltered`, in binary32. -/
def emaInit_f32 : EMAStateF32 := { filteredTemp := f32 0 1, initialized := 0 }

/-- Initial values of the statics of `TMP37_ReadFilteredKalman`, in binary32. -/
def kalmanInit_f32 : KalmanStateF32 := { initialized := 0, x := f32 0 1, P := f32 1 1 }

/-- `TMP37_ReadFiltered` in binary32; `vref` is the field of the handle. -/
def TMP37_ReadFiltered_f32 (vref : F32) (raw : Nat) (s : EMAStateF32) :
    F32 × EMAStateF32 :=
  let vout : F32 := F32.mul (F32.div (f32 raw 1) (f32 4095 1)) vref
  let tempC : F32 := F32.div vout (f32 2 100)
  let s1 : EMAStateF32 :=
    if s.initialized = 0 then { filteredTemp := tempC, initialized := 1 } else s
  let alpha : F32 := f32 1 100
  let filteredTemp : F32 :=
    F32.add s1.filteredTemp (F32.mul alpha (F32.sub tempC s1.filteredTemp))
  (filteredTemp, { filteredTemp := filteredTemp, initialized := s1.initialized })

/-- `TMP37_ReadFilteredKalman` in binary32; `vref` is the field of the handle. -/
def TMP37_ReadFilteredKalman_f32 (vref : F32) (raw : Nat) (s : KalmanStateF32) :
    F32 × KalmanStateF32 :=
  let Q : F32 := f32 1 1000
  let R : F32 := f32 5 1
  let vout : F32 := F32.mul (F32.div (f32 raw 1) (f32 4095 1)) vref
  let z : F32 := F32.div vout (f32 2 100)
  if s.initialized = 0 then
    (z, { initialized := 1, x := z, P := f32 1 1 })
  else
    let x0 : F32 := s.x
    let P0 : F32 := F32.add s.P Q
    let K : F32 := F32.div P0 (F32.add P0 R)
    let x1 : F32 := F32.add x0 (F32.mul K (F32.sub z x0))
    let P1 : F32 := F32.mul (F32.sub (f32 1 1) K) P0
    (x1, { initialized := s.initialized, x := x1, P := P1 })

/-- Binary32 statics of the Kalman filter after a sequence of calls, each with its own
`vref` and raw sample. -/
def kalmanRun_f32 (s : KalmanStateF32) : List (F32 × Nat) → KalmanStateF32
  | [] => s
  | c :: cs => kalmanRun_f32 (TMP37_ReadFilteredKalman_f32 c.1 c.2 s).2 cs

/-! ## Basic facts -/

theorem specTemperature_eq (htmp : TMP37_Handle) (raw : Nat) :
    ((raw : ℚ) / 4095.0) * htmp.vref / 0.02 = specTemperature htmp.vref raw := by
  unfold specTemperature
  norm_num

theorem Q_pos : 0 < Q := by norm_num [Q]

theorem R_pos : 0 < R := by norm_num [R]

/-- Algebra of the covariance update: `(1 - u / (u + r)) * u = r * u / (u + r)`. -/
theorem cov_update_eq {F : Type} [Field F] (u r : F) (h : u + r ≠ 0) :
    (1 - u / (u + r)) * u = r * u / (u + r) := by
  field_simp

/-- A tracking call stores `(1 - K) * (P + Q)` and keeps `initialized`. -/
theorem kalman_track_P (htmp : TMP37_Handle) (raw : Nat) (s : KalmanState)
    (hinit : s.initialized ≠ 0) :
    (TMP37_ReadFilteredKalman htmp raw s).2.P = (1 - kalmanGain s) * (s.P + Q)
      ∧ (TMP37_ReadFilteredKalman htmp raw s).2.initialized = s.initialized := by
  simp only [TMP37_ReadFilteredKalman, if_neg hinit, kalmanGain]
  norm_num

/-- An initialising call stores `P = 1` and sets `initialized = 1`. -/
theorem kalman_init_P (htmp : TMP37_Handle) (raw : Nat) (s : KalmanState)
    (hinit : s.initialized = 0) :
    (TMP37_ReadFilteredKalman htmp raw s).2.P = 1
      ∧ (TMP37_ReadFilteredKalman htmp raw s).2.initialized = 1 := by
  simp only [TMP37_ReadFilteredKalman, if_pos hinit]
  norm_num

/-- The gain of a state with non-negative covariance lies strictly between 0 and 1. -/
theorem kalmanGain_mem (s : KalmanState) (hP : 0 ≤ s.P) :
    0 < kalmanGain s ∧ kalmanGain s < 1 := by
  have hQ := Q_pos
  have hR := R_pos
  have hu : 0 < s.P + Q := by linarith
  have hd : 0 < s.P + Q + R := by linarith
  simp only [kalmanGain]
  refine ⟨div_pos hu hd, ?_⟩
  rw [div_lt_one hd]
  linarith

/-- One call keeps the covariance non-negative. -/
theorem kalman_step_P_nonneg (htmp : TMP37_Handle) (raw : Nat) (s : KalmanState)
    (hP : 0 ≤ s.P) : 0 ≤ (TMP37_ReadFilteredKalman htmp raw s).2.P := by
  by_cases hinit : s.initialized = 0
  · rw [(kalman_init_P htmp raw s hinit).1]
    exact zero_le_one
  · rw [(kalman_track_P htmp raw s hinit).1]
    have hK := kalmanGain_mem s hP
    have hQ := Q_pos
    exact mul_nonneg (by linarith) (by linarith)

theorem kalmanRun_P_nonneg (calls : List (TMP37_Handle × Nat)) :
    ∀ s : KalmanState, 0 ≤ s.P → 0 ≤ (kalmanRun s calls).P := by
  induction calls with
  | nil => intro s hs; exact hs
  | cons c cs ih =>
    intro s hs
    exact ih _ (kalman_step_P_nonneg c.1 c.2 s hs)

theorem kalmanRun_append (l₁ l₂ : List (TMP37_Handle × Nat)) :
    ∀ s : KalmanState, kalmanRun s (l₁ ++ l₂) = kalmanRun (kalmanRun s l₁) l₂ := by
  induction l₁ with
  | nil => intro s; rfl
  | cons c cs ih => intro s; exact ih _

/-- Under a constant stream, the state after `n + 1` calls is one call applied to the
state after `n` calls. -/
theorem kalmanRun_replicate_succ (htmp : TMP37_Handle) (raw : Nat) (n : Nat) :
    kalmanRun kalmanInit (List.replicate (n + 1) (htmp, raw))
      = (TMP37_ReadFilteredKalman htmp raw
          (kalmanRun kalmanInit (List.replicate n (htmp, raw)))).2 := by
  rw [List.replicate_succ', kalmanRun_append]
  rfl

/-- Invariant of the tracking phase: the statics are initialised, the covariance is
positive and it is not below the steady state (`Q * R ≤ P ^ 2 + Q * P`). -/
theorem kalman_tracking_invariant (htmp : TMP37_Handle) (raw : Nat) (n : Nat) :
    (kalmanRun kalmanInit (List.replicate (n + 1) (htmp, raw))).initialized ≠ 0
      ∧ 0 < kalmanCov htmp raw (n + 1)
      ∧ Q * R ≤ kalmanCov htmp raw (n + 1) ^ 2 + Q * kalmanCov htmp raw (n + 1) := by
  induction n with
  | zero =>
    simp only [kalmanCov]
    norm_num [kalmanRun, TMP37_ReadFilteredKalman, kalmanInit, Q, R]
  | succ n ih =>
    obtain ⟨hi, hp, hq⟩ := ih
    have hQ := Q_pos
    have hR := R_pos
    have hstep := kalman_track_P htmp raw _ hi
    simp only [kalmanCov] at hp hq ⊢
    rw [kalmanRun_replicate_succ htmp raw (n + 1)]
    generalize kalmanRun kalmanInit (List.replicate (n + 1) (htmp, raw)) = s at *
    have hd : 0 < s.P + Q + R := by linarith
    have hu : 0 < s.P + Q := by linarith
    have hP : (TMP37_ReadFilteredKalman htmp raw s).2.P = R * (s.P + Q) / (s.P + Q + R) := by
      rw [hstep.1]
      simp only [kalmanGain]
      exact cov_update_eq _ _ hd.ne'
    refine ⟨by rw [hstep.2]; exact hi, ?_, ?_⟩
    · rw [hP]
      exact div_pos (mul_pos hR hu) hd
    · rw [hP, div_pow, ← mul_div_assoc, div_add_div _ _ (pow_ne_zero 2 hd.ne') hd.ne',
        le_div_iff₀ (mul_pos (pow_pos hd 2) hd)]
      have key : 0 ≤ R ^ 2 * (s.P + Q + R) * (s.P ^ 2 + Q * s.P - Q * R) :=
        mul_nonneg (mul_nonneg (sq_nonneg R) hd.le) (by linarith)
      nlinarith [key]

/-- Under a constant stream the covariance does not increase from one call to the next. -/
theorem kalmanCov_succ_le (htmp : TMP37_Handle) (raw : Nat) (n : Nat) :
    kalmanCov htmp raw (n + 1) ≤ kalmanCov htmp raw n := by
  cases n with
  | zero =>
    simp only [kalmanCov]
    norm_num [kalmanRun, TMP37_ReadFilteredKalman, kalmanInit]
  | succ n =>
    obtain ⟨hi, hp, hq⟩ := kalman_tracking_invariant htmp raw n
    have hQ := Q_pos
    have hR := R_pos
    have hstep := kalman_track_P htmp raw _ hi
    simp only [kalmanCov] at hp hq ⊢
    rw [kalmanRun_replicate_succ htmp raw (n + 1)]
    generalize kalmanRun kalmanInit (List.replicate (n + 1) (htmp, raw)) = s at *
    have hd : 0 < s.P + Q + R := by linarith
    rw [hstep.1]
    simp only [kalmanGain]
    rw [cov_update_eq _ _ hd.ne', div_le_iff₀ hd]
    nlinarith

/-- One call of `TMP37_ReadFiltered`: the returned value is the stored one, the statics
are initialised afterwards, and the error to the sample temperature is `1 - alpha` times the
error of the value the smoothing step started from. -/
theorem ema_step_error (htmp : TMP37_Handle) (raw : Nat) (s : EMAState) :
    (TMP37_ReadFiltered htmp raw s).2.filteredTemp = (TMP37_ReadFiltered htmp raw s).1
      ∧ (TMP37_ReadFiltered htmp raw s).2.initialized ≠ 0
      ∧ (TMP37_ReadFiltered htmp raw s).1 - specTemperature htmp.vref raw
          = (1 - alpha) * ((if s.initialized = 0 then specTemperature htmp.vref raw
              else s.filteredTemp) - specTemperature htmp.vref raw) := by
  by_cases h : s.initialized = 0
  · simp only [TMP37_ReadFiltered, if_pos h, specTemperature]
    norm_num
  · simp only [TMP37_ReadFiltered, if_neg h, specTemperature]
    refine ⟨trivial, h, ?_⟩
    norm_num
    ring

/-- Closed form of the values returned under a constant stream. -/
theorem emaReturned_error (htmp : TMP37_Handle) (raw : Nat) (s : EMAState) (n : Nat) :
    emaReturned htmp raw s n - specTemperature htmp.vref raw
      = (1 - alpha) ^ (n + 1) * ((if s.initialized = 0 then specTemperature htmp.vref raw
          else s.filteredTemp) - specTemperature htmp.vref raw) := by
  induction n with
  | zero =>
    rw [zero_add, pow_one]
    exact (ema_step_error htmp raw s).2.2
  | succ n ih =>
    have h := ema_step_error htmp raw (emaAfter htmp raw s n)
    have h2 := (ema_step_error htmp raw (emaAfter htmp raw s (n + 1))).2.2
    have hs : emaAfter htmp raw s (n + 1)
        = (TMP37_ReadFiltered htmp raw (emaAfter htmp raw s n)).2 := rfl
    rw [hs, if_neg h.2.1, h.1] at h2
    have hr : emaReturned htmp raw s (n + 1)
        = (TMP37_ReadFiltered htmp raw
            (TMP37_ReadFiltered htmp raw (emaAfter htmp raw s n)).2).1 := rfl
    have hr0 : emaReturned htmp raw s n
        = (TMP37_ReadFiltered htmp raw (emaAfter htmp raw s n)).1 := rfl
    rw [hr, h2, ← hr0, ih, pow_succ (1 - alpha) (n + 1)]
    ring

theorem one_sub_alpha_mem : 0 < 1 - alpha ∧ 1 - alpha < 1 := by
  norm_num [alpha]

/-- Recurrence of the covariance under a constant stream, from the second call on. -/
theorem kalmanCov_recurrence (htmp : TMP37_Handle) (raw : Nat) (n : Nat) :
    kalmanCov htmp raw (n + 2)
      = R * (kalmanCov htmp raw (n + 1) + Q) / (kalmanCov htmp raw (n + 1) + Q + R) := by
  obtain ⟨hi, hp, -⟩ := kalman_tracking_invariant htmp raw n
  have hQ := Q_pos
  have hR := R_pos
  have hstep := kalman_track_P htmp raw _ hi
  simp only [kalmanCov] at hp ⊢
  rw [kalmanRun_replicate_succ htmp raw (n + 1), hstep.1]
  simp only [kalmanGain]
  exact cov_update_eq _ _ (by linarith : (0 : ℚ) <
    (kalmanRun kalmanInit (List.replicate (n + 1) (htmp, raw))).P + Q + R).ne'

theorem kalmanCov_nonneg (htmp : TMP37_Handle) (raw : Nat) (n : Nat) :
    0 ≤ kalmanCov htmp raw n :=
  kalmanRun_P_nonneg _ kalmanInit (by norm_num [kalmanInit])

/-- A non-negative root of `P ^ 2 + Q * P = Q * R` is unique. -/
theorem steady_state_unique (a b : ℝ) (ha : 0 ≤ a) (hb : 0 ≤ b)
    (hra : a ^ 2 + (Q : ℝ) * a = (Q : ℝ) * (R : ℝ))
    (hrb : b ^ 2 + (Q : ℝ) * b = (Q : ℝ) * (R : ℝ)) : a = b := by
  have hQ : (0 : ℝ) < (Q : ℝ) := by exact_mod_cast Q_pos
  have hprod : (a - b) * (a + b + (Q : ℝ)) = 0 := by
    have : (a - b) * (a + b + (Q : ℝ)) = (a ^ 2 + (Q : ℝ) * a) - (b ^ 2 + (Q : ℝ) * b) := by
      ring
    rw [this, hra, hrb, sub_self]
  rcases mul_eq_zero.1 hprod with h | h
  · linarith
  · linarith

/-- A non-negative real is a fixed point of the covariance update exactly when it is a
root of `P ^ 2 + Q * P = Q * R`. -/
theorem fixed_point_iff_root (p : ℝ) (hp : 0 ≤ p) :
    p = (1 - (p + (Q : ℝ)) / (p + (Q : ℝ) + (R : ℝ))) * (p + (Q : ℝ))
      ↔ p ^ 2 + (Q : ℝ) * p = (Q : ℝ) * (R : ℝ) := by
  have hQ : (0 : ℝ) < (Q : ℝ) := by exact_mod_cast Q_pos
  have hR : (0 : ℝ) < (R : ℝ) := by exact_mod_cast R_pos
  have hd : (0 : ℝ) < p + (Q : ℝ) + (R : ℝ) := by linarith
  rw [cov_update_eq _ _ hd.ne', eq_div_iff hd.ne']
  constructor
  · intro h; linarith
  · intro h; linarith

/-- Under a constant stream the covariance sequence converges, in `ℝ`, to the non-negative
root of `P ^ 2 + Q * P = Q * R`. -/
theorem kalmanCov_tendsto (htmp : TMP37_Handle) (raw : Nat) :
    ∃ L : ℝ, 0 ≤ L ∧ L ^ 2 + (Q : ℝ) * L = (Q : ℝ) * (R : ℝ)
      ∧ Filter.Tendsto (fun n : Nat => ((kalmanCov htmp raw n : ℚ) : ℝ)) Filter.atTop
          (nhds L) := by
  have hQ : (0 : ℝ) < (Q : ℝ) := by exact_mod_cast Q_pos
  have hR : (0 : ℝ) < (R : ℝ) := by exact_mod_cast R_pos
  have hanti : Antitone (fun n : Nat => ((kalmanCov htmp raw n : ℚ) : ℝ)) :=
    antitone_nat_of_succ_le (fun n => by exact_mod_cast kalmanCov_succ_le htmp raw n)
  have hnn : ∀ n : Nat, (0 : ℝ) ≤ ((kalmanCov htmp raw n : ℚ) : ℝ) :=
    fun n => by exact_mod_cast kalmanCov_nonneg htmp raw n
  have hbdd : BddBelow (Set.range (fun n : Nat => ((kalmanCov htmp raw n : ℚ) : ℝ))) :=
    ⟨0, by rintro _ ⟨n, rfl⟩; exact hnn n⟩
  have hlim := tendsto_atTop_ciInf hanti hbdd
  generalize (⨅ n : Nat, ((kalmanCov htmp raw n : ℚ) : ℝ)) = L at hlim
  have hL : 0 ≤ L := ge_of_tendsto' hlim hnn
  have hd : (0 : ℝ) < L + (Q : ℝ) + (R : ℝ) := by linarith
  have h2 := (Filter.tendsto_add_atTop_iff_nat 2).2 hlim
  have h1 := (Filter.tendsto_add_atTop_iff_nat 1).2 hlim
  have h3 : Filter.Tendsto
      (fun n : Nat => (R : ℝ) * (((kalmanCov htmp raw (n + 1) : ℚ) : ℝ) + (Q : ℝ))
        / (((kalmanCov htmp raw (n + 1) : ℚ) : ℝ) + (Q : ℝ) + (R : ℝ)))
      Filter.atTop (nhds ((R : ℝ) * (L + (Q : ℝ)) / (L + (Q : ℝ) + (R : ℝ)))) :=
    ((h1.add_const (Q : ℝ)).const_mul (R : ℝ)).div
      ((h1.add_const (Q : ℝ)).add_const (R : ℝ)) hd.ne'
  have hrec : ∀ n : Nat, (R : ℝ) * (((kalmanCov htmp raw (n + 1) : ℚ) : ℝ) + (Q : ℝ))
        / (((kalmanCov htmp raw (n + 1) : ℚ) : ℝ) + (Q : ℝ) + (R : ℝ))
      = ((kalmanCov htmp raw (n + 2) : ℚ) : ℝ) := by
    intro n
    rw [kalmanCov_recurrence htmp raw n]
    push_cast
    rfl
  have hfix : L = (R : ℝ) * (L + (Q : ℝ)) / (L + (Q : ℝ) + (R : ℝ)) :=
    tendsto_nhds_unique h2 (h3.congr hrec)
  rw [eq_div_iff hd.ne'] at hfix
  exact ⟨L, hL, by linarith, hlim⟩

/-- C1. EMA first call: entered with `initialized = 0` (whatever `filteredTemp` holds),
`TMP37_ReadFiltered` returns exactly the temperature `T = (raw / 4095) * vref / 0.02` of
the sample, stores `filteredTemp = T` and sets `initialized = 1`. -/
theorem ema_first_call (vref : ℚ) (raw : Nat) (f : ℚ) :
    TMP37_ReadFiltered { vref := vref } raw { filteredTemp := f, initialized := 0 }
      = (((raw : ℚ) / 4095) * vref / 0.02,
         { filteredTemp := ((raw : ℚ) / 4095) * vref / 0.02, initialized := 1 }) := by
  simp only [TMP37_ReadFiltered, if_true]
  norm_num

/-- C2. Kalman first call: entered with `initialized = 0` (whatever `x` and `P` hold),
`TMP37_ReadFilteredKalman` returns exactly the measurement `z = (raw / 4095) * vref / 0.02`,
stores `x = z` and `P = 1.0`, and sets `initialized = 1`; no predict/update cycle runs, so
the stored covariance is `1` and differs from `(1 - K) * (1 + Q)`. -/
theorem kalman_first_call (vref : ℚ) (raw : Nat) (x0 P0 : ℚ) :
    TMP37_ReadFilteredKalman { vref := vref } raw { initialized := 0, x := x0, P := P0 }
        = (((raw : ℚ) / 4095) * vref / 0.02,
           { initialized := 1, x := ((raw : ℚ) / 4095) * vref / 0.02, P := 1 })
      ∧ (TMP37_ReadFilteredKalman { vref := vref } raw
            { initialized := 0, x := x0, P := P0 }).2.P
          ≠ (1 - (1 + Q) / (1 + Q + R)) * (1 + Q) := by
  constructor
  · simp only [TMP37_ReadFilteredKalman, if_true]
    norm_num
  · simp only [TMP37_ReadFilteredKalman, if_true, Q, R]
    norm_num

/-- C3. Kalman tracking step: entered with `initialized ≠ 0`, estimate `x` and covariance
`P`, one call of `TMP37_ReadFilteredKalman` on a sample with measurement `z` forms
`P_pred = P + Q`, `K = P_pred / (P_pred + R)` with `Q = 0.001`, `R = 5.0`, stores
`x + K * (z - x)` and `(1 - K) * P_pred`, and returns the new estimate; the estimate that
enters the update is the stored `x` (the predict step does not change it), and `K` is the
gain `kalmanGain` of the entry state. -/
theorem kalman_tracking_step (htmp : TMP37_Handle) (raw : Nat) (s : KalmanState)
    (hinit : s.initialized ≠ 0) :
    Q = 1 / 1000 ∧ R = 5 ∧
    kalmanGain s = (s.P + Q) / ((s.P + Q) + R) ∧
    TMP37_ReadFilteredKalman htmp raw s
      = (s.x + (s.P + Q) / ((s.P + Q) + R) * ((raw : ℚ) / 4095 * htmp.vref / 0.02 - s.x),
         { initialized := s.initialized,
           x := s.x + (s.P + Q) / ((s.P + Q) + R) * ((raw : ℚ) / 4095 * htmp.vref / 0.02 - s.x),
           P := (1 - (s.P + Q) / ((s.P + Q) + R)) * (s.P + Q) }) := by
  refine ⟨by norm_num [Q], by norm_num [R], rfl, ?_⟩
  simp only [TMP37_ReadFilteredKalman, if_neg hinit]
  norm_num

theorem kalman_tracking_step_witness :
    ({ initialized := 1, x := 20, P := 1 } : KalmanState).initialized ≠ 0 ∧
    (Q = 1 / 1000 ∧ R = 5 ∧
    kalmanGain { initialized := 1, x := 20, P := 1 }
      = ((1 : ℚ) + Q) / (((1 : ℚ) + Q) + R) ∧
    TMP37_ReadFilteredKalman { vref := 3.3 } 819 { initialized := 1, x := 20, P := 1 }
      = ((20 : ℚ) + ((1 : ℚ) + Q) / (((1 : ℚ) + Q) + R)
            * (((819 : Nat) : ℚ) / 4095 * (3.3 : ℚ) / 0.02 - (20 : ℚ)),
         { initialized := 1,
           x := (20 : ℚ) + ((1 : ℚ) + Q) / (((1 : ℚ) + Q) + R)
            * (((819 : Nat) : ℚ) / 4095 * (3.3 : ℚ) / 0.02 - (20 : ℚ)),
           P := (1 - ((1 : ℚ) + Q) / (((1 : ℚ) + Q) + R)) * ((1 : ℚ) + Q) })) :=
  ⟨by decide,
   kalman_tracking_step { vref := 3.3 } 819 { initialized := 1, x := 20, P := 1 } (by decide)⟩

/-- C4. EMA tracking step: entered with `initialized ≠ 0` and filtered value `f`, one call
of `TMP37_ReadFiltered` on a sample of temperature `T` stores `f + alpha * (T - f)` with
`alpha = 0.01`, returns that value, and leaves `initialized` as it was. -/
theorem ema_tracking_step (htmp : TMP37_Handle) (raw : Nat) (s : EMAState)
    (hinit : s.initialized ≠ 0) :
    alpha = 1 / 100 ∧
    TMP37_ReadFiltered htmp raw s
      = (s.filteredTemp + alpha * ((raw : ℚ) / 4095 * htmp.vref / 0.02 - s.filteredTemp),
         { filteredTemp :=
             s.filteredTemp + alpha * ((raw : ℚ) / 4095 * htmp.vref / 0.02 - s.filteredTemp),
           initialized := s.initialized }) := by
  refine ⟨by norm_num [alpha], ?_⟩
  simp only [TMP37_ReadFiltered, if_neg hinit]
  norm_num

theorem ema_tracking_step_witness :
    ({ filteredTemp := 20, initialized := 1 } : EMAState).initialized ≠ 0 ∧
    (alpha = 1 / 100 ∧
    TMP37_ReadFiltered { vref := 3.3 } 819 { filteredTemp := 20, initialized := 1 }
      = ((20 : ℚ) + alpha * (((819 : Nat) : ℚ) / 4095 * (3.3 : ℚ) / 0.02 - (20 : ℚ)),
         { filteredTemp :=
             (20 : ℚ) + alpha * (((819 : Nat) : ℚ) / 4095 * (3.3 : ℚ) / 0.02 - (20 : ℚ)),
           initialized := 1 })) :=
  ⟨by decide,
   ema_tracking_step { vref := 3.3 } 819 { filteredTemp := 20, initialized := 1 } (by decide)⟩

/-- C5. Converter: both read functions work on the temperature
`specTemperature vref raw = (raw / 4095) * vref / 0.02` (no offset): the value returned by
`TMP37_ReadFiltered` and by `TMP37_ReadFilteredKalman`, in either branch, is the
specification's update applied to that temperature.  With `vref = 3.3` the code `4095`
converts to `165` and, for every `vref`, the code `0` converts to `0`; a first call of
either function returns these values. -/
theorem converter_formula :
    (∀ (htmp : TMP37_Handle) (raw : Nat) (s : EMAState),
        (TMP37_ReadFiltered htmp raw s).1
          = if s.initialized = 0 then specTemperature htmp.vref raw
            else s.filteredTemp + alpha * (specTemperature htmp.vref raw - s.filteredTemp))
    ∧ (∀ (htmp : TMP37_Handle) (raw : Nat) (s : KalmanState),
        (TMP37_ReadFilteredKalman htmp raw s).1
          = if s.initialized = 0 then specTemperature htmp.vref raw
            else s.x + kalmanGain s * (specTemperature htmp.vref raw - s.x))
    ∧ (∀ (vref : ℚ) (raw : Nat), specTemperature vref raw = ((raw : ℚ) / 4095) * vref / 0.02)
    ∧ specTemperature 3.3 4095 = 165
    ∧ (∀ vref : ℚ, specTemperature vref 0 = 0)
    ∧ (TMP37_ReadFiltered { vref := 3.3 } 4095 emaInit).1 = 165
    ∧ (TMP37_ReadFilteredKalman { vref := 3.3 } 4095 kalmanInit).1 = 165
    ∧ (∀ vref : ℚ, (TMP37_ReadFiltered { vref := vref } 0 emaInit).1 = 0)
    ∧ (∀ vref : ℚ, (TMP37_ReadFilteredKalman { vref := vref } 0 kalmanInit).1 = 0) := by
  refine ⟨?_, ?_, fun _ _ => rfl, ?_, ?_, ?_, ?_, ?_, ?_⟩
  · intro htmp raw s
    by_cases h : s.initialized = 0
    · simp only [TMP37_ReadFiltered, if_pos h, specTemperature]
      norm_num
    · simp only [TMP37_ReadFiltered, if_neg h, specTemperature]
      norm_num
  · intro htmp raw s
    by_cases h : s.initialized = 0
    · simp only [TMP37_ReadFilteredKalman, if_pos h, specTemperature]
      norm_num
    · simp only [TMP37_ReadFilteredKalman, if_neg h, specTemperature, kalmanGain]
      norm_num
  · norm_num [specTemperature]
  · intro vref
    norm_num [specTemperature]
  · norm_num [TMP37_ReadFiltered, emaInit, alpha]
  · norm_num [TMP37_ReadFilteredKalman, kalmanInit]
  · intro vref
    norm_num [TMP37_ReadFiltered, emaInit, alpha]
  · intro vref
    norm_num [TMP37_ReadFilteredKalman, kalmanInit]

/-- C6. Covariance invariant: after any finite sequence of calls of
`TMP37_ReadFilteredKalman` from the initial statics (`x = 0`, `P = 1.0`, `initialized = 0`),
with arbitrary raw samples and an arbitrary `vref` at each call, the stored covariance
satisfies `0 ≤ P`. -/
theorem kalman_covariance_nonneg (calls : List (TMP37_Handle × Nat)) :
    kalmanInit = { initialized := 0, x := 0, P := 1 }
      ∧ 0 ≤ (kalmanRun kalmanInit calls).P := by
  refine ⟨by norm_num [kalmanInit], kalmanRun_P_nonneg calls kalmanInit ?_⟩
  norm_num [kalmanInit]

/-- C8. Kalman covariance is non-increasing: under a constant stream from the initial
statics, with `P_n` the covariance stored after the `n`-th call, `P_1 = 1` and
`P_(n+1) ≤ P_n` for every `n ≥ 1` (written with `n = m + 1`). -/
theorem kalman_covariance_nonincreasing (htmp : TMP37_Handle) (raw : Nat) :
    kalmanCov htmp raw 1 = 1
      ∧ ∀ m : Nat, kalmanCov htmp raw ((m + 1) + 1) ≤ kalmanCov htmp raw (m + 1) := by
  refine ⟨?_, fun m => kalmanCov_succ_le htmp raw (m + 1)⟩
  norm_num [kalmanCov, kalmanRun, TMP37_ReadFilteredKalman, kalmanInit]

/-- C9. Kalman gain converges inside (0,1): under a constant stream from the initial
statics, the gain `K_n = (P_n + Q) / (P_n + Q + R)` that tracking call `n + 1` computes
(`n ≥ 1`, written `n = m + 1`) is the factor of that call's update, lies strictly between
0 and 1, and the sequence `K_n` converges to a limit `Kss` with `0 < Kss < 1` which is the
same for every handle and sample: `Kss = (Pss + Q) / (Pss + Q + R)` with `Pss` the
non-negative root of `Pss ^ 2 + Q * Pss = Q * R`, `Q = 0.001`, `R = 5.0`. -/
theorem kalman_gain_converges :
    Q = 1 / 1000 ∧ R = 5
    ∧ (∀ (htmp : TMP37_Handle) (raw : Nat) (m : Nat),
        kalmanGainAt htmp raw (m + 1)
            = (kalmanCov htmp raw (m + 1) + Q) / (kalmanCov htmp raw (m + 1) + Q + R)
          ∧ (TMP37_ReadFilteredKalman htmp raw
              (kalmanRun kalmanInit (List.replicate (m + 1) (htmp, raw)))).1
            = (kalmanRun kalmanInit (List.replicate (m + 1) (htmp, raw))).x
              + kalmanGainAt htmp raw (m + 1)
                * (specTemperature htmp.vref raw
                    - (kalmanRun kalmanInit (List.replicate (m + 1) (htmp, raw))).x)
          ∧ 0 < kalmanGainAt htmp raw (m + 1) ∧ kalmanGainAt htmp raw (m + 1) < 1)
    ∧ ∃ Pss Kss : ℝ, 0 ≤ Pss ∧ Pss ^ 2 + (Q : ℝ) * Pss = (Q : ℝ) * (R : ℝ)
        ∧ Kss = (Pss + (Q : ℝ)) / (Pss + (Q : ℝ) + (R : ℝ))
        ∧ 0 < Kss ∧ Kss < 1
        ∧ ∀ (htmp : TMP37_Handle) (raw : Nat),
            Filter.Tendsto (fun m : Nat => ((kalmanGainAt htmp raw (m + 1) : ℚ) : ℝ))
              Filter.atTop (nhds Kss) := by
  have hQ : (0 : ℝ) < (Q : ℝ) := by exact_mod_cast Q_pos
  have hR : (0 : ℝ) < (R : ℝ) := by exact_mod_cast R_pos
  refine ⟨by norm_num [Q], by norm_num [R], ?_, ?_⟩
  · intro htmp raw m
    obtain ⟨hi, -, -⟩ := kalman_tracking_invariant htmp raw m
    have hK := kalmanGain_mem _ (kalmanCov_nonneg htmp raw (m + 1))
    refine ⟨rfl, ?_, hK.1, hK.2⟩
    simp only [TMP37_ReadFilteredKalman, if_neg hi, specTemperature, kalmanGainAt, kalmanGain]
    norm_num
  · obtain ⟨L0, hL0, hroot0, -⟩ := kalmanCov_tendsto { vref := 0 } 0
    have hd : (0 : ℝ) < L0 + (Q : ℝ) + (R : ℝ) := by linarith
    refine ⟨L0, (L0 + (Q : ℝ)) / (L0 + (Q : ℝ) + (R : ℝ)), hL0, hroot0, rfl,
      div_pos (by linarith) hd, (div_lt_one hd).2 (by linarith), ?_⟩
    intro htmp raw
    obtain ⟨L, hL, hroot, hlim⟩ := kalmanCov_tendsto htmp raw
    have hLL : L = L0 := steady_state_unique L L0 hL hL0 hroot hroot0
    rw [hLL] at hlim
    have h1 := (Filter.tendsto_add_atTop_iff_nat 1).2 hlim
    have h3 := ((h1.add_const (Q : ℝ))).div ((h1.add_const (Q : ℝ)).add_const (R : ℝ)) hd.ne'
    refine h3.congr ?_
    intro m
    simp only [kalmanGainAt, kalmanGain, kalmanCov]
    push_cast
    rfl

/-- C10, as stated, fails: the covariance sequence of a constant stream has a limit `P`,
which is a non-negative fixed point of the covariance recursion of a tracking call
(`P = (1 - K) * (P + Q)`, `K = (P + Q) / (P + Q + R)`), and this `P` does not satisfy
`P = P / (P + R) * R`. -/
theorem steady_state_equation_without_Q_fails :
    ∃ P : ℝ, 0 ≤ P
      ∧ P = (1 - (P + (Q : ℝ)) / (P + (Q : ℝ) + (R : ℝ))) * (P + (Q : ℝ))
      ∧ Filter.Tendsto (fun n : Nat => ((kalmanCov { vref := 3.3 } 819 n : ℚ) : ℝ))
          Filter.atTop (nhds P)
      ∧ P ≠ P / (P + (R : ℝ)) * (R : ℝ) := by
  have hQ : (0 : ℝ) < (Q : ℝ) := by exact_mod_cast Q_pos
  have hR : (0 : ℝ) < (R : ℝ) := by exact_mod_cast R_pos
  obtain ⟨L, hL, hroot, hlim⟩ := kalmanCov_tendsto { vref := 3.3 } 819
  refine ⟨L, hL, (fixed_point_iff_root L hL).2 hroot, hlim, ?_⟩
  intro h
  have hd : (0 : ℝ) < L + (R : ℝ) := by linarith
  rw [div_mul_eq_mul_div, eq_div_iff hd.ne'] at h
  have hsq : L ^ 2 = 0 := by linarith
  have hz : L = 0 := pow_eq_zero_iff (two_ne_zero) |>.1 hsq
  rw [hz] at hroot
  have : (Q : ℝ) * (R : ℝ) = 0 := by linarith
  exact (mul_pos hQ hR).ne' this

/-- C10, amended: every non-negative fixed point `P` of the covariance recursion of a
tracking call (`P = (1 - K) * (P + Q)`, `K = (P + Q) / (P + Q + R)`, `Q = 0.001`, `R = 5.0`)
is the limit of the covariance sequence of a constant stream and satisfies
`P = (P + Q) / (P + Q + R) * R`: the steady-state equation holds with the predicted
covariance `P + Q` on its right-hand side. -/
theorem steady_state_equation (htmp : TMP37_Handle) (raw : Nat) (P : ℝ) (hP : 0 ≤ P)
    (hfix : P = (1 - (P + (Q : ℝ)) / (P + (Q : ℝ) + (R : ℝ))) * (P + (Q : ℝ))) :
    Filter.Tendsto (fun n : Nat => ((kalmanCov htmp raw n : ℚ) : ℝ)) Filter.atTop (nhds P)
      ∧ P = (P + (Q : ℝ)) / (P + (Q : ℝ) + (R : ℝ)) * (R : ℝ) := by
  have hQ : (0 : ℝ) < (Q : ℝ) := by exact_mod_cast Q_pos
  have hR : (0 : ℝ) < (R : ℝ) := by exact_mod_cast R_pos
  have hroot := (fixed_point_iff_root P hP).1 hfix
  obtain ⟨L, hL, hrootL, hlim⟩ := kalmanCov_tendsto htmp raw
  have hLP : L = P := steady_state_unique L P hL hP hrootL hroot
  rw [hLP] at hlim
  refine ⟨hlim, ?_⟩
  have hd : (0 : ℝ) < P + (Q : ℝ) + (R : ℝ) := by linarith
  rw [div_mul_eq_mul_div, eq_div_iff hd.ne']
  linarith

theorem steady_state_equation_witness :
    0 ≤ (Real.sqrt 20001 - 1) / 2000
    ∧ (Real.sqrt 20001 - 1) / 2000
        = (1 - ((Real.sqrt 20001 - 1) / 2000 + (Q : ℝ))
              / ((Real.sqrt 20001 - 1) / 2000 + (Q : ℝ) + (R : ℝ)))
            * ((Real.sqrt 20001 - 1) / 2000 + (Q : ℝ))
    ∧ (Filter.Tendsto (fun n : Nat => ((kalmanCov { vref := 3.3 } 819 n : ℚ) : ℝ))
          Filter.atTop (nhds ((Real.sqrt 20001 - 1) / 2000))
        ∧ (Real.sqrt 20001 - 1) / 2000
            = ((Real.sqrt 20001 - 1) / 2000 + (Q : ℝ))
                / ((Real.sqrt 20001 - 1) / 2000 + (Q : ℝ) + (R : ℝ)) * (R : ℝ)) := by
  have hs : Real.sqrt 20001 ^ 2 = 20001 := Real.sq_sqrt (by norm_num)
  have hs1 : (1 : ℝ) ≤ Real.sqrt 20001 := by
    rw [Real.one_le_sqrt]
    norm_num
  have hP : (0 : ℝ) ≤ (Real.sqrt 20001 - 1) / 2000 := by
    apply div_nonneg
    · linarith
    · norm_num
  have hfix : (Real.sqrt 20001 - 1) / 2000
      = (1 - ((Real.sqrt 20001 - 1) / 2000 + (Q : ℝ))
              / ((Real.sqrt 20001 - 1) / 2000 + (Q : ℝ) + (R : ℝ)))
            * ((Real.sqrt 20001 - 1) / 2000 + (Q : ℝ)) := by
    rw [fixed_point_iff_root _ hP]
    have hQv : (Q : ℝ) = 1 / 1000 := by norm_num [Q]
    have hRv : (R : ℝ) = 5 := by norm_num [R]
    rw [hQv, hRv]
    linear_combination (1 / 4000000 : ℝ) * hs
  exact ⟨hP, hfix, steady_state_equation { vref := 3.3 } 819 _ hP hfix⟩

/-! ## Two calls in a row, initialisation, independence -/

/-- Every call of `TMP37_ReadFilteredKalman` leaves the statics initialised. -/
theorem kalman_step_initialized (htmp : TMP37_Handle) (raw : Nat) (s : KalmanState) :
    (TMP37_ReadFilteredKalman htmp raw s).2.initialized ≠ 0 := by
  by_cases h : s.initialized = 0
  · rw [(kalman_init_P htmp raw s h).2]
    exact one_ne_zero
  · rw [(kalman_track_P htmp raw s h).2]
    exact h

theorem kalmanRun_initialized (calls : List (TMP37_Handle × Nat)) :
    ∀ s : KalmanState, s.initialized ≠ 0 → (kalmanRun s calls).initialized ≠ 0 := by
  induction calls with
  | nil => intro s hs; exact hs
  | cons c cs ih =>
    intro s _
    exact ih _ (kalman_step_initialized c.1 c.2 s)

/-- After at least one call from the initial statics the Kalman filter is tracking with a
non-negative covariance. -/
theorem kalman_reachable_tracking (c : TMP37_Handle × Nat) (calls : List (TMP37_Handle × Nat)) :
    (kalmanRun kalmanInit (c :: calls)).initialized ≠ 0
      ∧ 0 ≤ (kalmanRun kalmanInit (c :: calls)).P :=
  ⟨kalmanRun_initialized calls _ (kalman_step_initialized c.1 c.2 kalmanInit),
   kalmanRun_P_nonneg (c :: calls) kalmanInit (by norm_num [kalmanInit])⟩

/-- A tracking call returns `x + K * (z - x)` and stores it. -/
theorem kalman_track_x (htmp : TMP37_Handle) (raw : Nat) (s : KalmanState)
    (hinit : s.initialized ≠ 0) :
    (TMP37_ReadFilteredKalman htmp raw s).1
        = s.x + kalmanGain s * (specTemperature htmp.vref raw - s.x)
      ∧ (TMP37_ReadFilteredKalman htmp raw s).2.x = (TMP37_ReadFilteredKalman htmp raw s).1 := by
  simp only [TMP37_ReadFilteredKalman, if_neg hinit, kalmanGain, specTemperature]
  norm_num

/-- Two tracking Kalman calls on the same sample, from statics with `0 ≤ P`: the returned
values agree exactly when the estimate already equals the measurement. -/
theorem kalman_twice_eq_iff (htmp : TMP37_Handle) (raw : Nat) (s : KalmanState)
    (hinit : s.initialized ≠ 0) (hP : 0 ≤ s.P) :
    (TMP37_ReadFilteredKalman htmp raw s).1
        = (TMP37_ReadFilteredKalman htmp raw (TMP37_ReadFilteredKalman htmp raw s).2).1
      ↔ s.x = specTemperature htmp.vref raw := by
  have h1 := kalman_track_x htmp raw s hinit
  have hi2 := kalman_step_initialized htmp raw s
  have hP2 := kalman_step_P_nonneg htmp raw s hP
  have h2 := kalman_track_x htmp raw _ hi2
  have hK1 := kalmanGain_mem s hP
  have hK2 := kalmanGain_mem _ hP2
  rw [h2.1, h1.2, h1.1]
  generalize kalmanGain (TMP37_ReadFilteredKalman htmp raw s).2 = K2 at hK2 ⊢
  generalize kalmanGain s = K1 at hK1 ⊢
  generalize specTemperature htmp.vref raw = z
  constructor
  · intro h
    have hprod : K2 * (1 - K1) * (z - s.x) = 0 := by linear_combination -h
    have hne : K2 * (1 - K1) ≠ 0 := (mul_pos hK2.1 (by linarith)).ne'
    have hz : z - s.x = 0 := (mul_eq_zero.1 hprod).resolve_left hne
    linarith
  · intro h
    rw [h]
    ring

/-- Two tracking EMA calls on the same sample: the returned values agree exactly when the
filtered value already equals the sample temperature. -/
theorem ema_twice_eq_iff (htmp : TMP37_Handle) (raw : Nat) (s : EMAState)
    (hinit : s.initialized ≠ 0) :
    (TMP37_ReadFiltered htmp raw s).1
        = (TMP37_ReadFiltered htmp raw (TMP37_ReadFiltered htmp raw s).2).1
      ↔ s.filteredTemp = specTemperature htmp.vref raw := by
  have h1 := ema_step_error htmp raw s
  have h2 := (ema_step_error htmp raw (TMP37_ReadFiltered htmp raw s).2).2.2
  rw [if_neg h1.2.1, h1.1] at h2
  have h1e := h1.2.2
  rw [if_neg hinit] at h1e
  obtain ⟨ha0, ha1⟩ := one_sub_alpha_mem
  generalize (TMP37_ReadFiltered htmp raw (TMP37_ReadFiltered htmp raw s).2).1 = r2 at h2 ⊢
  generalize (TMP37_ReadFiltered htmp raw s).1 = r1 at h1e h2 ⊢
  generalize specTemperature htmp.vref raw = T at h1e h2 ⊢
  constructor
  · intro h
    have hprod : alpha * (1 - alpha) * (s.filteredTemp - T) = 0 := by
      linear_combination (-alpha) * h1e + h2 + h
    have hne : alpha * (1 - alpha) ≠ 0 := (mul_pos (by linarith) ha0).ne'
    have hz : s.filteredTemp - T = 0 := (mul_eq_zero.1 hprod).resolve_left hne
    linarith
  · intro h
    rw [h, sub_self, mul_zero] at h1e
    rw [h1e, mul_zero] at h2
    linarith

/-- C11, amended.  In exact arithmetic, repeated update is not idempotent: two consecutive
calls with the same raw sample
and handle, of `TMP37_ReadFiltered` from any tracking statics and of
`TMP37_ReadFilteredKalman` from any tracking statics reached from the initial ones (at
least one call made), return the same value exactly when the current estimate already
equals the sample temperature `T`; so the two values differ whenever the estimate differs
from `T`. -/
theorem repeated_update_not_idempotent (htmp : TMP37_Handle) (raw : Nat) (se : EMAState)
    (c : TMP37_Handle × Nat) (calls : List (TMP37_Handle × Nat))
    (hinit : se.initialized ≠ 0) :
    ((TMP37_ReadFiltered htmp raw se).1
        = (TMP37_ReadFiltered htmp raw (TMP37_ReadFiltered htmp raw se).2).1
      ↔ se.filteredTemp = (raw : ℚ) / 4095 * htmp.vref / 0.02)
    ∧ ((TMP37_ReadFilteredKalman htmp raw (kalmanRun kalmanInit (c :: calls))).1
        = (TMP37_ReadFilteredKalman htmp raw
            (TMP37_ReadFilteredKalman htmp raw (kalmanRun kalmanInit (c :: calls))).2).1
      ↔ (kalmanRun kalmanInit (c :: calls)).x = (raw : ℚ) / 4095 * htmp.vref / 0.02) := by
  constructor
  · exact ema_twice_eq_iff htmp raw se hinit
  · obtain ⟨hi, hP⟩ := kalman_reachable_tracking c calls
    exact kalman_twice_eq_iff htmp raw _ hi hP

theorem repeated_update_not_idempotent_witness :
    ({ filteredTemp := 20, initialized := 1 } : EMAState).initialized ≠ 0
    ∧ (((TMP37_ReadFiltered { vref := 3.3 } 819 { filteredTemp := 20, initialized := 1 }).1
        = (TMP37_ReadFiltered { vref := 3.3 } 819
            (TMP37_ReadFiltered { vref := 3.3 } 819
              { filteredTemp := 20, initialized := 1 }).2).1
      ↔ ({ filteredTemp := 20, initialized := 1 } : EMAState).filteredTemp
          = ((819 : Nat) : ℚ) / 4095 * ({ vref := 3.3 } : TMP37_Handle).vref / 0.02)
    ∧ ((TMP37_ReadFilteredKalman { vref := 3.3 } 819
          (kalmanRun kalmanInit (({ vref := 3.3 }, 1000) :: []))).1
        = (TMP37_ReadFilteredKalman { vref := 3.3 } 819
            (TMP37_ReadFilteredKalman { vref := 3.3 } 819
              (kalmanRun kalmanInit (({ vref := 3.3 }, 1000) :: []))).2).1
      ↔ (kalmanRun kalmanInit (({ vref := 3.3 }, 1000) :: [])).x
          = ((819 : Nat) : ℚ) / 4095 * ({ vref := 3.3 } : TMP37_Handle).vref / 0.02)) :=
  ⟨by decide,
   repeated_update_not_idempotent { vref := 3.3 } 819 { filteredTemp := 20, initialized := 1 }
     ({ vref := 3.3 }, 1000) [] (by decide)⟩

/-- Effect of one API call on the EMA flag. -/
theorem callDriver_ema_initialized (c : Call) (d : Driver) :
    (callDriver c d).2.ema.initialized
      = match c with
        | Call.ReadFiltered _ => if d.ema.initialized = 0 then 1 else d.ema.initialized
        | _ => d.ema.initialized := by
  cases c with
  | Init => rfl
  | ReadFiltered raw =>
    by_cases h : d.ema.initialized = 0
    · simp only [callDriver, TMP37_ReadFiltered, if_pos h]
    · simp only [callDriver, TMP37_ReadFiltered, if_neg h]
  | ReadFilteredKalman raw => rfl

/-- Effect of one API call on the Kalman flag. -/
theorem callDriver_kalman_initialized (c : Call) (d : Driver) :
    (callDriver c d).2.kalman.initialized
      = match c with
        | Call.ReadFilteredKalman _ =>
          if d.kalman.initialized = 0 then 1 else d.kalman.initialized
        | _ => d.kalman.initialized := by
  cases c with
  | Init => rfl
  | ReadFiltered raw => rfl
  | ReadFilteredKalman raw =>
    by_cases h : d.kalman.initialized = 0
    · simp only [callDriver, TMP37_ReadFilteredKalman, if_pos h]
    · simp only [callDriver, TMP37_ReadFilteredKalman, if_neg h]

theorem runDriver_ema_initialized_one (calls : List Call) :
    ∀ d : Driver, d.ema.initialized = 1 → (runDriver d calls).ema.initialized = 1 := by
  induction calls with
  | nil => intro d h; exact h
  | cons c cs ih =>
    intro d h
    apply ih
    rw [callDriver_ema_initialized]
    cases c <;> simp [h]

theorem runDriver_kalman_initialized_one (calls : List Call) :
    ∀ d : Driver, d.kalman.initialized = 1 → (runDriver d calls).kalman.initialized = 1 := by
  induction calls with
  | nil => intro d h; exact h
  | cons c cs ih =>
    intro d h
    apply ih
    rw [callDriver_kalman_initialized]
    cases c <;> simp [h]

theorem runDriver_ema_initialized (calls : List Call) :
    ∀ d : Driver, d.ema.initialized = 0 →
      (runDriver d calls).ema.initialized = if emaRaws calls = [] then 0 else 1 := by
  induction calls with
  | nil => intro d h; simpa [runDriver, emaRaws] using h
  | cons c cs ih =>
    intro d h
    cases c with
    | Init => exact ih _ h
    | ReadFiltered raw =>
      have h1 : (callDriver (Call.ReadFiltered raw) d).2.ema.initialized = 1 := by
        rw [callDriver_ema_initialized]
        simp [h]
      simpa [runDriver, emaRaws] using runDriver_ema_initialized_one cs _ h1
    | ReadFilteredKalman raw => exact ih _ h

theorem runDriver_kalman_initialized (calls : List Call) :
    ∀ d : Driver, d.kalman.initialized = 0 →
      (runDriver d calls).kalman.initialized = if kalmanRaws calls = [] then 0 else 1 := by
  induction calls with
  | nil => intro d h; simpa [runDriver, kalmanRaws] using h
  | cons c cs ih =>
    intro d h
    cases c with
    | Init => exact ih _ h
    | ReadFiltered raw => exact ih _ h
    | ReadFilteredKalman raw =>
      have h1 : (callDriver (Call.ReadFilteredKalman raw) d).2.kalman.initialized = 1 := by
        rw [callDriver_kalman_initialized]
        simp [h]
      simpa [runDriver, kalmanRaws] using runDriver_kalman_initialized_one cs _ h1

/-- C12. Initialisation is one-way: both `initialized` flags are 0 in the initial memory;
after any sequence of API calls from it, a flag is 1 as soon as its read function has been
called at least once (and 0 before that); and no call of `TMP37_Init`,
`TMP37_ReadFiltered` or `TMP37_ReadFilteredKalman` takes a memory with a flag equal to 1 to
one where that flag is not 1. -/
theorem initialized_one_way (htmp : TMP37_Handle) (calls : List Call) (d : Driver)
    (c : Call) :
    (driverInit htmp).ema.initialized = 0
    ∧ (driverInit htmp).kalman.initialized = 0
    ∧ (runDriver (driverInit htmp) calls).ema.initialized
        = (if emaRaws calls = [] then 0 else 1)
    ∧ (runDriver (driverInit htmp) calls).kalman.initialized
        = (if kalmanRaws calls = [] then 0 else 1)
    ∧ (d.ema.initialized = 1 → (callDriver c d).2.ema.initialized = 1)
    ∧ (d.kalman.initialized = 1 → (callDriver c d).2.kalman.initialized = 1) := by
  refine ⟨rfl, rfl, runDriver_ema_initialized calls _ rfl,
    runDriver_kalman_initialized calls _ rfl, ?_, ?_⟩
  · intro h
    exact runDriver_ema_initialized_one [c] d h
  · intro h
    exact runDriver_kalman_initialized_one [c] d h

theorem initialized_one_way_witness :
    (callDriver (Call.ReadFiltered 819)
        { htmp := { vref := 3.3 }, ema := { filteredTemp := 20, initialized := 1 },
          kalman := { initialized := 1, x := 20, P := 1 } }).2.ema.initialized = 1
    ∧ (callDriver (Call.ReadFiltered 819)
        { htmp := { vref := 3.3 }, ema := { filteredTemp := 20, initialized := 1 },
          kalman := { initialized := 1, x := 20, P := 1 } }).2.kalman.initialized = 1 :=
  ⟨(initialized_one_way { vref := 3.3 } [Call.ReadFiltered 819]
      { htmp := { vref := 3.3 }, ema := { filteredTemp := 20, initialized := 1 },
        kalman := { initialized := 1, x := 20, P := 1 } } (Call.ReadFiltered 819)).2.2.2.2.1 rfl,
   (initialized_one_way { vref := 3.3 } [Call.ReadFiltered 819]
      { htmp := { vref := 3.3 }, ema := { filteredTemp := 20, initialized := 1 },
        kalman := { initialized := 1, x := 20, P := 1 } } (Call.ReadFiltered 819)).2.2.2.2.2 rfl⟩

theorem emaReturns_eq_emaOutputs (calls : List Call) :
    ∀ d : Driver, emaReturns d calls = emaOutputs d.htmp d.ema (emaRaws calls) := by
  induction calls with
  | nil => intro d; rfl
  | cons c cs ih =>
    intro d
    cases c with
    | Init => exact ih _
    | ReadFiltered raw =>
      simp only [emaReturns, emaRaws, emaOutputs]
      rw [ih]
      rfl
    | ReadFilteredKalman raw => exact ih _

theorem kalmanReturns_eq_kalmanOutputs (calls : List Call) :
    ∀ d : Driver, kalmanReturns d calls = kalmanOutputs d.htmp d.kalman (kalmanRaws calls) := by
  induction calls with
  | nil => intro d; rfl
  | cons c cs ih =>
    intro d
    cases c with
    | Init => exact ih _
    | ReadFiltered raw => exact ih _
    | ReadFilteredKalman raw =>
      simp only [kalmanReturns, kalmanRaws, kalmanOutputs]
      rw [ih]
      rfl

/-- C15. The two estimators are independent: on the driver memory (handle, EMA statics,
Kalman statics) a call of `TMP37_ReadFiltered` leaves the Kalman statics and the handle
unchanged, a call of `TMP37_ReadFilteredKalman` leaves the EMA statics and the handle
unchanged, and `TMP37_Init` changes nothing; hence in any sequence of API calls the values
returned by the calls of one read function are those it returns when run alone, from its own
statics, on its own samples. -/
theorem estimators_independent (d : Driver) (raw : Nat) (calls : List Call) :
    (callDriver (Call.ReadFiltered raw) d).2.kalman = d.kalman
    ∧ (callDriver (Call.ReadFiltered raw) d).2.htmp = d.htmp
    ∧ (callDriver (Call.ReadFilteredKalman raw) d).2.ema = d.ema
    ∧ (callDriver (Call.ReadFilteredKalman raw) d).2.htmp = d.htmp
    ∧ (callDriver Call.Init d).2 = d
    ∧ (runDriver d calls).htmp = d.htmp
    ∧ emaReturns d calls = emaOutputs d.htmp d.ema (emaRaws calls)
    ∧ kalmanReturns d calls = kalmanOutputs d.htmp d.kalman (kalmanRaws calls) := by
  refine ⟨rfl, rfl, rfl, rfl, rfl, ?_, emaReturns_eq_emaOutputs calls d,
    kalmanReturns_eq_kalmanOutputs calls d⟩
  induction calls generalizing d with
  | nil => rfl
  | cons c cs ih =>
    have h := ih (callDriver c d).2
    cases c <;> exact h

/-- Under a constant stream, from any statics, the state after `n + 1` calls is one call
applied to the state after `n` calls. -/
theorem kalmanRun_replicate_snoc (htmp : TMP37_Handle) (raw : Nat) (s : KalmanState)
    (n : Nat) :
    kalmanRun s (List.replicate (n + 1) (htmp, raw))
      = (TMP37_ReadFilteredKalman htmp raw (kalmanRun s (List.replicate n (htmp, raw)))).2 := by
  rw [List.replicate_succ', kalmanRun_append]
  rfl

/-- From uninitialised statics, a constant stream keeps the estimate at the sample
temperature. -/
theorem kalman_constant_stream_x (htmp : TMP37_Handle) (raw : Nat) (s : KalmanState)
    (hinit : s.initialized = 0) (n : Nat) :
    (kalmanRun s (List.replicate (n + 1) (htmp, raw))).initialized ≠ 0
      ∧ (kalmanRun s (List.replicate (n + 1) (htmp, raw))).x
          = specTemperature htmp.vref raw := by
  induction n with
  | zero =>
    simp only [zero_add, List.replicate_one, kalmanRun, TMP37_ReadFilteredKalman,
      if_pos hinit, specTemperature]
    norm_num
  | succ n ih =>
    rw [kalmanRun_replicate_snoc htmp raw s (n + 1)]
    have h := kalman_track_x htmp raw _ ih.1
    refine ⟨kalman_step_initialized _ _ _, ?_⟩
    rw [h.2, h.1, ih.2]
    ring

/-- C19. A constant stream from a fresh estimator is reproduced exactly: started with
`initialized = 0` (whatever the other statics hold), when every call receives the same raw
sample and handle, of temperature `T = (raw / 4095) * vref / 0.02`, every call of
`TMP37_ReadFiltered` and every call of `TMP37_ReadFilteredKalman` returns exactly `T`
(call number `n + 1`, for every `n`); in particular the first two calls return the same
value. -/
theorem constant_stream_reproduced (htmp : TMP37_Handle) (raw : Nat) (f x0 P0 : ℚ)
    (n : Nat) :
    emaReturned htmp raw { filteredTemp := f, initialized := 0 } n
        = (raw : ℚ) / 4095 * htmp.vref / 0.02
    ∧ (TMP37_ReadFilteredKalman htmp raw
          (kalmanRun { initialized := 0, x := x0, P := P0 }
            (List.replicate n (htmp, raw)))).1
        = (raw : ℚ) / 4095 * htmp.vref / 0.02
    ∧ emaReturned htmp raw { filteredTemp := f, initialized := 0 } 0
        = emaReturned htmp raw { filteredTemp := f, initialized := 0 } 1
    ∧ (TMP37_ReadFilteredKalman htmp raw { initialized := 0, x := x0, P := P0 }).1
        = (TMP37_ReadFilteredKalman htmp raw
            (TMP37_ReadFilteredKalman htmp raw { initialized := 0, x := x0, P := P0 }).2).1 := by
  have hema : ∀ m : Nat, emaReturned htmp raw { filteredTemp := f, initialized := 0 } m
      = specTemperature htmp.vref raw := by
    intro m
    have h := emaReturned_error htmp raw { filteredTemp := f, initialized := 0 } m
    rw [if_pos rfl, sub_self, mul_zero] at h
    linarith
  have hkal : ∀ m : Nat, (TMP37_ReadFilteredKalman htmp raw
      (kalmanRun { initialized := 0, x := x0, P := P0 } (List.replicate m (htmp, raw)))).1
      = specTemperature htmp.vref raw := by
    intro m
    cases m with
    | zero =>
      simp only [List.replicate_zero, kalmanRun, TMP37_ReadFilteredKalman, if_true,
        specTemperature]
      norm_num
    | succ m =>
      obtain ⟨hi, hx⟩ := kalman_constant_stream_x htmp raw
        { initialized := 0, x := x0, P := P0 } rfl m
      rw [(kalman_track_x htmp raw _ hi).1, hx]
      ring
  refine ⟨hema n, hkal n, ?_, ?_⟩
  · rw [hema 0, hema 1]
  · have h0 := hkal 0
    have h1 := hkal 1
    simp only [List.replicate_zero, List.replicate_one, kalmanRun] at h0 h1
    rw [h0, h1]

/-! ## Division, tuning constants as parameters -/

/-- With the constants of the source, `readFilteredKalmanWith` is
`TMP37_ReadFilteredKalman`. -/
theorem readFilteredKalmanWith_source (htmp : TMP37_Handle) (raw : Nat) (s : KalmanState) :
    readFilteredKalmanWith Q R htmp raw s = TMP37_ReadFilteredKalman htmp raw s := rfl

theorem kalmanRunWith_source (calls : List (TMP37_Handle × Nat)) :
    ∀ s : KalmanState, kalmanRunWith Q R s calls = kalmanRun s calls := by
  induction calls with
  | nil => intro s; rfl
  | cons c cs ih => intro s; exact ih _

/-- One call with non-negative `q`, `r`, not both zero, keeps the covariance
non-negative. -/
theorem readFilteredKalmanWith_P_nonneg (q r : ℚ) (hq : 0 ≤ q) (hr : 0 ≤ r)
    (hqr : 0 < q + r) (htmp : TMP37_Handle) (raw : Nat) (s : KalmanState) (hP : 0 ≤ s.P) :
    0 ≤ (readFilteredKalmanWith q r htmp raw s).2.P := by
  by_cases hinit : s.initialized = 0
  · simp only [readFilteredKalmanWith, if_pos hinit]
    norm_num
  · simp only [readFilteredKalmanWith, if_neg hinit]
    have hd : 0 < s.P + q + r := by linarith
    have h := cov_update_eq (s.P + q) r hd.ne'
    norm_num at h ⊢
    rw [h]
    exact div_nonneg (mul_nonneg hr (by linarith)) hd.le

theorem kalmanRunWith_P_nonneg (q r : ℚ) (hq : 0 ≤ q) (hr : 0 ≤ r) (hqr : 0 < q + r)
    (calls : List (TMP37_Handle × Nat)) :
    ∀ s : KalmanState, 0 ≤ s.P → 0 ≤ (kalmanRunWith q r s calls).P := by
  induction calls with
  | nil => intro s hs; exact hs
  | cons c cs ih =>
    intro s hs
    exact ih _ (readFilteredKalmanWith_P_nonneg q r hq hr hqr c.1 c.2 s hs)

/-- With non-zero constants as divisors, `TMP37_ReadFiltered_checked` never fails and
returns what `TMP37_ReadFiltered` returns. -/
theorem ema_checked_total (htmp : TMP37_Handle) (raw : Nat) (s : EMAState) :
    TMP37_ReadFiltered_checked htmp raw s = some (TMP37_ReadFiltered htmp raw s) := by
  have h1 : checkedDiv (raw : ℚ) 4095.0 = some ((raw : ℚ) / 4095.0) := by
    simp only [checkedDiv]
    rw [if_neg (by norm_num)]
  have h2 : ∀ v : ℚ, checkedDiv v 0.02 = some (v / 0.02) := by
    intro v
    simp only [checkedDiv]
    rw [if_neg (by norm_num)]
  simp only [TMP37_ReadFiltered_checked, TMP37_ReadFiltered, h1, h2, Option.some_bind]

/-- From statics with `0 ≤ P`, `TMP37_ReadFilteredKalman_checked` never fails and returns
what `TMP37_ReadFilteredKalman` returns. -/
theorem kalman_checked_total (htmp : TMP37_Handle) (raw : Nat) (s : KalmanState)
    (hP : 0 ≤ s.P) :
    TMP37_ReadFilteredKalman_checked htmp raw s
      = some (TMP37_ReadFilteredKalman htmp raw s) := by
  have hQ := Q_pos
  have hR := R_pos
  have h1 : checkedDiv (raw : ℚ) 4095.0 = some ((raw : ℚ) / 4095.0) := by
    simp only [checkedDiv]
    rw [if_neg (by norm_num)]
  have h2 : ∀ v : ℚ, checkedDiv v 0.02 = some (v / 0.02) := by
    intro v
    simp only [checkedDiv]
    rw [if_neg (by norm_num)]
  have h3 : checkedDiv (s.P + Q) (s.P + Q + R) = some ((s.P + Q) / (s.P + Q + R)) := by
    simp only [checkedDiv]
    rw [if_neg (by linarith : (0 : ℚ) < s.P + Q + R).ne']
  by_cases hi : s.initialized = 0
  · simp only [TMP37_ReadFilteredKalman_checked, TMP37_ReadFilteredKalman, h1, h2,
      Option.some_bind, if_pos hi]
  · simp only [TMP37_ReadFilteredKalman_checked, TMP37_ReadFilteredKalman, h1, h2, h3,
      Option.some_bind, if_neg hi]

/-- C13. No division by zero with the shipped constants (`Q = 0.001`, `R = 5.0`): after
any sequence of calls of `TMP37_ReadFilteredKalman` from the initial statics, with any raw
samples (0 and 4095 included) and any `vref`, the divisor `P + R` that the next call forms
after its predict step is strictly positive, and it is the divisor of the gain.  With every
division of the two function bodies guarded against a zero divisor, a call of
`TMP37_ReadFiltered` from any statics and a call of `TMP37_ReadFilteredKalman` from any
reachable statics never meets a zero divisor and returns its ordinary result: the divisors
of the converter are the constants `4095` and `0.02`, and both functions are total. -/
theorem no_division_by_zero_shipped (calls : List (TMP37_Handle × Nat))
    (htmp : TMP37_Handle) (raw : Nat) (s : EMAState) :
    Q = 1 / 1000 ∧ R = 5
    ∧ kalmanDenom (kalmanRun kalmanInit calls) = (kalmanRun kalmanInit calls).P + Q + R
    ∧ 0 < kalmanDenom (kalmanRun kalmanInit calls)
    ∧ kalmanGain (kalmanRun kalmanInit calls)
        = ((kalmanRun kalmanInit calls).P + Q) / kalmanDenom (kalmanRun kalmanInit calls)
    ∧ TMP37_ReadFiltered_checked htmp raw s = some (TMP37_ReadFiltered htmp raw s)
    ∧ TMP37_ReadFilteredKalman_checked htmp raw (kalmanRun kalmanInit calls)
        = some (TMP37_ReadFilteredKalman htmp raw (kalmanRun kalmanInit calls))
    ∧ (TMP37_ReadFiltered_checked htmp 0 s).isSome = true
    ∧ (TMP37_ReadFiltered_checked htmp 4095 s).isSome = true
    ∧ (TMP37_ReadFilteredKalman_checked htmp 0 (kalmanRun kalmanInit calls)).isSome = true
    ∧ (TMP37_ReadFilteredKalman_checked htmp 4095 (kalmanRun kalmanInit calls)).isSome = true
    ∧ (∀ (vref : ℚ) (r : Nat), specTemperature vref r = (r : ℚ) / 4095 * vref / 0.02)
    ∧ (4095 : ℚ) ≠ 0 ∧ (0.02 : ℚ) ≠ 0 := by
  have hP := kalmanRun_P_nonneg calls kalmanInit (by norm_num [kalmanInit])
  have hQ := Q_pos
  have hR := R_pos
  have hd : 0 < kalmanDenom (kalmanRun kalmanInit calls) := by
    simp only [kalmanDenom]
    linarith
  refine ⟨by norm_num [Q], by norm_num [R], rfl, hd, rfl, ema_checked_total htmp raw s,
    kalman_checked_total htmp raw _ hP, ?_, ?_, ?_, ?_, fun _ _ => rfl, by norm_num,
    by norm_num⟩
  · rw [ema_checked_total]; rfl
  · rw [ema_checked_total]; rfl
  · rw [kalman_checked_total htmp 0 _ hP]; rfl
  · rw [kalman_checked_total htmp 4095 _ hP]; rfl

/-- C14, as stated, fails: with `Q = 0` and `R = 0` (both non-negative), `vref = 3.3` and
the raw samples `4095` and `0`, the statics after two calls are tracking with `P = 0`, so
the divisor `P + R` that the third call forms after its predict step is zero. -/
theorem denominator_zero_for_zero_noise :
    (0 : ℚ) ≤ 0 ∧ (0 : ℚ) ≤ 3.3
    ∧ (kalmanRunWith 0 0 kalmanInit
        [({ vref := 3.3 }, 4095), ({ vref := 3.3 }, 0)]).initialized ≠ 0
    ∧ kalmanDenomWith 0 0
        (kalmanRunWith 0 0 kalmanInit [({ vref := 3.3 }, 4095), ({ vref := 3.3 }, 0)]) = 0 := by
  refine ⟨le_refl 0, by norm_num, ?_, ?_⟩
  · norm_num [kalmanRunWith, readFilteredKalmanWith, kalmanInit]
  · norm_num [kalmanDenomWith, kalmanRunWith, readFilteredKalmanWith, kalmanInit]

/-- C14, amended: with the constants of `TMP37_ReadFilteredKalman` taken as parameters,
for every non-negative `Q` and `R` that are not both zero, after every sequence of calls
from the initial statics (any `vref`, any raw samples, so in particular `vref ≥ 0` and raw
samples in `{0, 4095}`) the covariance is non-negative and the divisor `P + R` formed
after the predict step is strictly positive, hence not zero. -/
theorem no_division_by_zero_for_valid_tuning (q r : ℚ) (hq : 0 ≤ q) (hr : 0 ≤ r)
    (hqr : 0 < q + r) (calls : List (TMP37_Handle × Nat)) :
    0 ≤ (kalmanRunWith q r kalmanInit calls).P
    ∧ 0 < kalmanDenomWith q r (kalmanRunWith q r kalmanInit calls)
    ∧ kalmanDenomWith q r (kalmanRunWith q r kalmanInit calls) ≠ 0 := by
  have hP := kalmanRunWith_P_nonneg q r hq hr hqr calls kalmanInit (by norm_num [kalmanInit])
  have hd : 0 < kalmanDenomWith q r (kalmanRunWith q r kalmanInit calls) := by
    simp only [kalmanDenomWith]
    linarith
  exact ⟨hP, hd, hd.ne'⟩

theorem no_division_by_zero_for_valid_tuning_witness :
    (0 : ℚ) ≤ 0 ∧ (0 : ℚ) ≤ 5 ∧ (0 : ℚ) < 0 + 5
    ∧ (0 ≤ (kalmanRunWith 0 5 kalmanInit
          [({ vref := 3.3 }, 4095), ({ vref := 3.3 }, 0)]).P
      ∧ 0 < kalmanDenomWith 0 5
          (kalmanRunWith 0 5 kalmanInit [({ vref := 3.3 }, 4095), ({ vref := 3.3 }, 0)])
      ∧ kalmanDenomWith 0 5
          (kalmanRunWith 0 5 kalmanInit [({ vref := 3.3 }, 4095), ({ vref := 3.3 }, 0)])
          ≠ 0) :=
  ⟨le_refl 0, by norm_num, by norm_num,
   no_division_by_zero_for_valid_tuning 0 5 (le_refl 0) (by norm_num) (by norm_num)
     [({ vref := 3.3 }, 4095), ({ vref := 3.3 }, 0)]⟩

/-! ## Independence of the covariance from the data -/

/-- The covariance and the flag after one call depend only on the covariance and the flag
before it. -/
theorem kalman_step_data_indep (h1 h2 : TMP37_Handle) (raw1 raw2 : Nat) (s1 s2 : KalmanState)
    (hP : s1.P = s2.P) (hi : s1.initialized = s2.initialized) :
    (TMP37_ReadFilteredKalman h1 raw1 s1).2.P = (TMP37_ReadFilteredKalman h2 raw2 s2).2.P
      ∧ (TMP37_ReadFilteredKalman h1 raw1 s1).2.initialized
          = (TMP37_ReadFilteredKalman h2 raw2 s2).2.initialized := by
  by_cases h : s1.initialized = 0
  · have h' : s2.initialized = 0 := by rw [← hi]; exact h
    rw [(kalman_init_P h1 raw1 s1 h).1, (kalman_init_P h2 raw2 s2 h').1,
      (kalman_init_P h1 raw1 s1 h).2, (kalman_init_P h2 raw2 s2 h').2]
    exact ⟨rfl, rfl⟩
  · have h' : s2.initialized ≠ 0 := by rw [← hi]; exact h
    rw [(kalman_track_P h1 raw1 s1 h).1, (kalman_track_P h2 raw2 s2 h').1,
      (kalman_track_P h1 raw1 s1 h).2, (kalman_track_P h2 raw2 s2 h').2]
    simp only [kalmanGain, hP]
    exact ⟨trivial, hi⟩

theorem kalmanRun_data_indep (calls1 : List (TMP37_Handle × Nat)) :
    ∀ (calls2 : List (TMP37_Handle × Nat)) (s1 s2 : KalmanState),
      calls1.length = calls2.length → s1.P = s2.P → s1.initialized = s2.initialized →
      (kalmanRun s1 calls1).P = (kalmanRun s2 calls2).P
        ∧ (kalmanRun s1 calls1).initialized = (kalmanRun s2 calls2).initialized := by
  induction calls1 with
  | nil =>
    intro calls2 s1 s2 hlen hP hi
    cases calls2 with
    | nil => exact ⟨hP, hi⟩
    | cons c cs => simp at hlen
  | cons c1 cs1 ih =>
    intro calls2 s1 s2 hlen hP hi
    cases calls2 with
    | nil => simp at hlen
    | cons c2 cs2 =>
      have hstep := kalman_step_data_indep c1.1 c2.1 c1.2 c2.2 s1 s2 hP hi
      exact ih cs2 _ _ (by simpa using hlen) hstep.1 hstep.2

/-- C17. Covariance and gain do not depend on the data: two runs of
`TMP37_ReadFilteredKalman` from the initial statics with the same number of calls, whatever
their raw samples and `vref` values, end with the same covariance `P` and the same flag, so
the next call of either run uses the same gain `K`; and for every stream, constant or not,
one more call does not increase the covariance. -/
theorem covariance_independent_of_data (calls1 calls2 : List (TMP37_Handle × Nat))
    (hlen : calls1.length = calls2.length) :
    (kalmanRun kalmanInit calls1).P = (kalmanRun kalmanInit calls2).P
    ∧ (kalmanRun kalmanInit calls1).initialized = (kalmanRun kalmanInit calls2).initialized
    ∧ kalmanGain (kalmanRun kalmanInit calls1) = kalmanGain (kalmanRun kalmanInit calls2)
    ∧ ∀ c : TMP37_Handle × Nat,
        (kalmanRun kalmanInit (calls1 ++ [c])).P ≤ (kalmanRun kalmanInit calls1).P := by
  have h := kalmanRun_data_indep calls1 calls2 kalmanInit kalmanInit hlen rfl rfl
  refine ⟨h.1, h.2, ?_, ?_⟩
  · simp only [kalmanGain, h.1]
  · intro c
    have e1 := (kalmanRun_data_indep (calls1 ++ [c])
      (List.replicate (calls1.length + 1) c) kalmanInit kalmanInit (by simp) rfl rfl).1
    have e2 := (kalmanRun_data_indep calls1
      (List.replicate calls1.length c) kalmanInit kalmanInit (by simp) rfl rfl).1
    rw [e1, e2]
    exact kalmanCov_succ_le c.1 c.2 calls1.length

theorem covariance_independent_of_data_witness :
    ([(({ vref := 3.3 } : TMP37_Handle), 4095), ({ vref := 5 }, 17)]
        : List (TMP37_Handle × Nat)).length
      = ([(({ vref := 1 } : TMP37_Handle), 0), ({ vref := 2 }, 900)]
        : List (TMP37_Handle × Nat)).length
    ∧ (kalmanRun kalmanInit [({ vref := 3.3 }, 4095), ({ vref := 5 }, 17)]).P
        = (kalmanRun kalmanInit [({ vref := 1 }, 0), ({ vref := 2 }, 900)]).P :=
  ⟨rfl, (covariance_independent_of_data [({ vref := 3.3 }, 4095), ({ vref := 5 }, 17)]
      [({ vref := 1 }, 0), ({ vref := 2 }, 900)] rfl).1⟩

/-! ## Range of the outputs -/

set_option maxRecDepth 100000

/-- C11, as stated, fails on the binary32 program: with `vref = 3.3f` and raw sample 819
(temperature `8650753 / 262144`), two consecutive calls of `TMP37_ReadFiltered` from the
tracking statics `filteredTemp = 540669 / 16384` return the same value although the
filtered value differs from the temperature; and after one call of
`TMP37_ReadFilteredKalman` on a sample of temperature 33 (`vref = 5536481 * 2 ^ (-23)`,
raw 4095), two consecutive calls on that sample with `vref = 3.3f`, raw 819 both return 33
although the estimate 33 differs from the measurement. -/
theorem repeated_update_f32_equal :
    (TMP37_ReadFiltered_f32 (f32 33 10) 819 emaInit_f32).1 = F32.fin (units 8650753 (-18))
    ∧ (TMP37_ReadFiltered_f32 (f32 33 10) 819
          { filteredTemp := F32.fin (units 540669 (-14)), initialized := 1 }).1
        = (TMP37_ReadFiltered_f32 (f32 33 10) 819
            (TMP37_ReadFiltered_f32 (f32 33 10) 819
              { filteredTemp := F32.fin (units 540669 (-14)), initialized := 1 }).2).1
    ∧ F32.fin (units 540669 (-14)) ≠ F32.fin (units 8650753 (-18))
    ∧ (TMP37_ReadFilteredKalman_f32 (f32 33 10) 819 kalmanInit_f32).1
        = F32.fin (units 8650753 (-18))
    ∧ kalmanRun_f32 kalmanInit_f32 [(F32.fin (units 5536481 (-23)), 4095)]
        = { initialized := 1, x := F32.fin (units 33 0), P := f32 1 1 }
    ∧ (TMP37_ReadFilteredKalman_f32 (f32 33 10) 819
          (kalmanRun_f32 kalmanInit_f32 [(F32.fin (units 5536481 (-23)), 4095)])).1
        = F32.fin (units 33 0)
    ∧ (TMP37_ReadFilteredKalman_f32 (f32 33 10) 819
          (TMP37_ReadFilteredKalman_f32 (f32 33 10) 819
            (kalmanRun_f32 kalmanInit_f32 [(F32.fin (units 5536481 (-23)), 4095)])).2).1
        = F32.fin (units 33 0)
    ∧ F32.fin (units 33 0) ≠ F32.fin (units 8650753 (-18)) := by
  decide!

end TMP37
